import Mathlib

set_option autoImplicit false

namespace AgentsNew

/-! Shallow embedding of the communication backplane of the agents-new
repository (src/src/backplane). The shared Redis store is modelled as a
list of entries in insertion order: SET on an existing key replaces the
value in place, SET on a fresh key appends, GET returns the value at a
key, DEL removes it, and KEYS enumerates matching keys in store order.
Keys are structured by the namespaces the code derives from its
configured prefix (context:, branch:, agent:, message:), which are
pairwise disjoint for every prefix and all ids, so a key is a namespace
tag plus the id string. JSON serialization on the wire and in the store
is modelled as the identity on the typed values. Date.now() and
new Date() appear as explicit Nat parameters at the call sites that read
the clock. -/

inductive NodeType
  | thought | action | result | communication | summary
deriving DecidableEq, Repr

/-- ContextNode from src/src/agents/base/Context.ts. The optional fields
the backplane never reads (embedding, metadata, relevance, references)
ride along opaquely in the real entries and are omitted here. -/
structure ContextNode where
  id : String
  type : NodeType
  content : String
  timestamp : Nat
  threadId : Option String := none
  parentId : Option String := none
deriving DecidableEq, Repr

inductive AgentMessageType
  | request | response | update | error
deriving DecidableEq, Repr

/-- metadata of AgentMessage from src/src/agents/base/Agent.ts. -/
structure AgentMessageMetadata where
  sender : String
  priority : Nat
  requiresResponse : Bool
  deadline : Option Nat := none
deriving DecidableEq, Repr

/-- AgentMessage from src/src/agents/base/Agent.ts; the opaque content
payload is kept as a string. -/
structure AgentMessage where
  type : AgentMessageType
  content : String
  metadata : AgentMessageMetadata
deriving DecidableEq, Repr

structure MessageRouting where
  source : String
  target : String
  channel : Option String := none
  priority : Nat
deriving DecidableEq, Repr

structure EnvelopeMetadata where
  contextId : Option String := none
  correlationId : Option String := none
  ttl : Option Nat := none
  retries : Option Nat := none
deriving DecidableEq, Repr

/-- MessageEnvelope from src/src/backplane/types.ts. -/
structure MessageEnvelope where
  id : String
  timestamp : Nat
  message : AgentMessage
  routing : MessageRouting
  metadata : EnvelopeMetadata
deriving DecidableEq, Repr

inductive SyncType
  | update | delete | prune
deriving DecidableEq, Repr

/-- The metadata record of a ContextSyncEvent is an open map in the
source; the backplane itself only ever writes the mergedFrom and
branchId fields (in mergeContextBranch) and the empty record elsewhere. -/
structure SyncMetadata where
  mergedFrom : Option String := none
  branchId : Option String := none
deriving DecidableEq, Repr

/-- ContextSyncEvent from src/src/backplane/types.ts. -/
structure ContextSyncEvent where
  type : SyncType
  agentId : String
  contextId : String
  nodes : List ContextNode
  timestamp : Nat
  metadata : SyncMetadata
deriving DecidableEq, Repr

/-- ContextBranch from src/src/backplane/redis/context-manager.ts. -/
structure ContextBranch where
  id : String
  sourceId : String
  targetId : String
  nodes : List ContextNode
  createdAt : Nat
  lastSync : Nat
deriving DecidableEq, Repr

inductive AgentStatus
  | active | idle | busy | offline
deriving DecidableEq, Repr

/-- AgentInfo from src/src/backplane/types.ts; the open metadata map is
modelled as an association list. -/
structure AgentInfo where
  id : String
  role : String
  capabilities : List String
  status : AgentStatus
  lastSeen : Nat
  metadata : List (String × String) := []
deriving DecidableEq, Repr

/-- AgentRegistration from src/src/backplane/redis/discovery-service.ts
(AgentInfo plus registeredAt and lastHeartbeat), flattened. -/
structure AgentRegistration where
  id : String
  role : String
  capabilities : List String
  status : AgentStatus
  lastSeen : Nat
  metadata : List (String × String) := []
  registeredAt : Nat
  lastHeartbeat : Nat
deriving DecidableEq, Repr

def AgentRegistration.ofInfo (info : AgentInfo) (now : Nat) : AgentRegistration :=
  { id := info.id, role := info.role, capabilities := info.capabilities,
    status := info.status, lastSeen := info.lastSeen, metadata := info.metadata,
    registeredAt := now, lastHeartbeat := now }

def AgentRegistration.toAgentInfo (r : AgentRegistration) : AgentInfo :=
  { id := r.id, role := r.role, capabilities := r.capabilities,
    status := r.status, lastSeen := r.lastSeen, metadata := r.metadata }

/-- Store keys, namespaced exactly as the code builds them from its
configured prefix: p ++ "context:" ++ id, p ++ "branch:" ++ id,
p ++ "agent:" ++ id, p ++ "message:" ++ id. For one prefix these four
namespaces can never collide for any ids (the literal segments differ at
their first character), so a key is a tag plus the id. -/
inductive RKey
  | ctx (id : String)
  | branch (id : String)
  | agent (id : String)
  | msg (id : String)
deriving DecidableEq, Repr

/-- Stored values: the JSON the code writes at each namespace, typed. -/
inductive RVal
  | ctx (nodes : List ContextNode)
  | branch (b : ContextBranch)
  | agent (r : AgentRegistration)
  | msg (e : MessageEnvelope)
deriving DecidableEq, Repr

/-- One stored key with its value and TTL (EX seconds; none for SET
without EX, which also clears any previous expiry). -/
structure StoreEntry where
  key : RKey
  val : RVal
  ttl : Option Nat
deriving DecidableEq, Repr

abbrev RStore := List StoreEntry

/-- SET: replace in place if the key exists, append otherwise. -/
def redisSet : RStore → RKey → RVal → Option Nat → RStore
  | [], k, v, t => [⟨k, v, t⟩]
  | e :: es, k, v, t =>
      if e.key = k then ⟨k, v, t⟩ :: es else e :: redisSet es k v t

def redisEntry : RStore → RKey → Option StoreEntry
  | [], _ => none
  | e :: es, k => if e.key = k then some e else redisEntry es k

/-- GET. -/
def redisGet (st : RStore) (k : RKey) : Option RVal :=
  (redisEntry st k).map (·.val)

/-- DEL of one key. -/
def redisDel : RStore → RKey → RStore
  | [], _ => []
  | e :: es, k => if e.key = k then redisDel es k else e :: redisDel es k

/-- DEL of a list of keys (client.del(keys)). -/
def redisDelAll : RStore → List RKey → RStore
  | [], _ => []
  | e :: es, ks => if e.key ∈ ks then redisDelAll es ks else e :: redisDelAll es ks

/-- Does the pattern list lead (start) the other list? Used for the glob
`sourceId-targetId-*` inside the branch namespace. -/
def chainLeads : List Char → List Char → Bool
  | [], _ => true
  | _ :: _, [] => false
  | a :: as, b :: bs => a = b && chainLeads as bs

/-- Does s contain sub as a contiguous segment? Used for the glob
`*contextId*` inside the branch namespace. -/
def seqContains : List Char → List Char → Bool
  | s, sub =>
    if chainLeads sub s then true
    else match s with
      | [] => false
      | _ :: cs => seqContains cs sub

def strLeads (p s : String) : Bool := chainLeads p.data s.data

def strContains (s sub : String) : Bool := seqContains s.data sub.data

/-- Whether a key matches the glob `<prefix>branch:<sourceId>-<targetId>-*`
of mergeContextBranch: a branch key whose id starts with the pair's
composite id. Keys of the other namespaces never match (their literal
segment differs from branch: at its first character). -/
def pairMatch (sourceId targetId : String) (k : RKey) : Bool :=
  match k with
  | .branch id => strLeads (sourceId ++ "-" ++ targetId ++ "-") id
  | _ => false

/-- Whether a key matches the glob `<prefix>branch:*<contextId>*` of the
delete handling: a branch key whose id contains contextId. -/
def ctxMatch (c : String) (k : RKey) : Bool :=
  match k with
  | .branch id => strContains id c
  | _ => false

/-- KEYS `<prefix>branch:<sourceId>-<targetId>-*`, in store order (the
order the model's KEYS enumerates). Used by mergeContextBranch. -/
def branchKeysForPair (st : RStore) (sourceId targetId : String) : List RKey :=
  st.filterMap (fun e => if pairMatch sourceId targetId e.key then some e.key else none)

/-- KEYS `<prefix>branch:*<contextId>*`. Used by the delete handling of
handleSyncEvent. -/
def branchKeysContaining (st : RStore) (contextId : String) : List RKey :=
  st.filterMap (fun e => if ctxMatch contextId e.key then some e.key else none)

/-- KEYS `<prefix>agent:*`: every entry in the agent namespace, in store
order. Used by findAgents. -/
def agentEntries (st : RStore) : List StoreEntry :=
  st.filter (fun e => match e.key with | .agent _ => true | _ => false)

/-- The registrations present in the agent namespace, in store order:
the keys-then-get part of findAgents, before query filtering. -/
def agentsOf (st : RStore) : List AgentRegistration :=
  (agentEntries st).filterMap (fun e =>
    match e.val with
    | .agent r => some r
    | _ => none)

namespace RedisContextManager

/-- RedisContextManager.syncContext (context-manager.ts lines 44-70):
stores the event's nodes under the context key with a 7-day TTL,
publishes the event on the context channel (returned as the list of
published events), and, if a branch record is stored under the event's
contextId, rewrites that branch with nodes := event.nodes and
lastSync := now. Note the store/publish happen for every event type;
delete handling lives in handleSyncEvent. -/
def syncContext (now : Nat) (event : ContextSyncEvent) (st : RStore) :
    RStore × List ContextSyncEvent :=
  let st1 := redisSet st (.ctx event.contextId) (.ctx event.nodes) (some (86400 * 7))
  let pubs := [event]
  match redisGet st1 (.branch event.contextId) with
  | some (.branch b) =>
      (redisSet st1 (.branch event.contextId)
        (.branch { b with lastSync := now, nodes := event.nodes }) none, pubs)
  | _ => (st1, pubs)

/-- RedisContextManager.getSharedContext (lines 72-76): the stored list,
or [] when the key is absent. -/
def getSharedContext (st : RStore) (contextId : String) : List ContextNode :=
  match redisGet st (.ctx contextId) with
  | some (.ctx nodes) => nodes
  | _ => []

/-- RedisContextManager.createContextBranch (lines 78-100): snapshot the
source context into a fresh branch record keyed by
sourceId-targetId-Date.now() and return the branch id. -/
def createContextBranch (now : Nat) (sourceId targetId : String) (st : RStore) :
    String × RStore :=
  let sourceContext := getSharedContext st sourceId
  let branchId := sourceId ++ "-" ++ targetId ++ "-" ++ toString now
  let branch : ContextBranch :=
    { id := branchId, sourceId := sourceId, targetId := targetId,
      nodes := sourceContext, createdAt := now, lastSync := now }
  (branchId, redisSet st (.branch branchId) (.branch branch) none)

inductive MergeError
  | noBranchFound
  | branchDataNotFound
deriving DecidableEq, Repr

/-- RedisContextManager.mergeContextBranch (lines 102-135): KEYS on the
pair's branch pattern, error if none, take the last key, load the
branch (branch keys only ever hold branch records), fold its nodes into
the target context via syncContext with metadata.mergedFrom = sourceId,
then delete the branch key. -/
def mergeContextBranch (now : Nat) (sourceId targetId : String) (st : RStore) :
    Except MergeError (RStore × List ContextSyncEvent) :=
  let branchKeys := branchKeysForPair st sourceId targetId
  match branchKeys.getLast? with
  | none => .error .noBranchFound
  | some branchKey =>
    match redisGet st branchKey with
    | some (.branch branch) =>
        let r := syncContext now
          { type := .update, agentId := targetId, contextId := targetId,
            nodes := branch.nodes, timestamp := now,
            metadata := { mergedFrom := some sourceId, branchId := some branch.id } } st
        .ok (redisDel r.1 branchKey, r.2)
    | _ => .error .branchDataNotFound

/-- RedisContextManager.handleSyncEvent (lines 137-171), the handler the
context channel subscription applies to every received event: update is
a no-op (already handled in syncContext), delete removes the context key
and every branch key whose id contains contextId, prune re-reads the
current nodes, applies the (identity) pruning transform and republishes
through syncContext as an update. Returns the new store and the events
published while handling. -/
def handleSyncEvent (now : Nat) (event : ContextSyncEvent) (st : RStore) :
    RStore × List ContextSyncEvent :=
  match event.type with
  | .update => (st, [])
  | .delete =>
      let st1 := redisDel st (.ctx event.contextId)
      let branchKeys := branchKeysContaining st1 event.contextId
      (if branchKeys = [] then st1 else redisDelAll st1 branchKeys, [])
  | .prune =>
      let nodes := getSharedContext st event.contextId
      let prunedNodes := nodes
      syncContext now { event with type := .update, nodes := prunedNodes } st

/-- A syncContext call followed by the local delivery of the event it
published: the manager subscribes to its own context channel in
initialize, so the published event comes back through handleSyncEvent. -/
def syncContextDelivered (now : Nat) (event : ContextSyncEvent) (st : RStore) :
    RStore :=
  let r := syncContext now event st
  (r.2.foldl (fun acc e => (handleSyncEvent now e acc).1) r.1)

end RedisContextManager

namespace RedisMessageBroker

/-- A locally registered per-agent handler; a rejected promise is an
error value. -/
abbrev Handler := MessageEnvelope → Except String Unit

/-- The subscriptions Map, in insertion order; subscribe with an
existing key replaces the handler in place. -/
abbrev Subscriptions := List (String × Handler)

def subscribe : Subscriptions → String → Handler → Subscriptions
  | [], pattern, h => [(pattern, h)]
  | p :: ps, pattern, h =>
      if p.1 = pattern then (pattern, h) :: ps else p :: subscribe ps pattern h

def unsubscribe (subs : Subscriptions) (pattern : String) : Subscriptions :=
  subs.filter (fun p => ¬ p.1 = pattern)

/-- RedisMessageBroker.publish (message-broker.ts lines 59-64): emit the
serialized envelope on the message channel. The store is untouched:
persistence happens only in the subscription callback. -/
def publish (st : RStore) (message : MessageEnvelope) :
    RStore × List MessageEnvelope :=
  (st, [message])

/-- The dispatch loop of the subscription callback (lines 37-43): every
registered handler is invoked with the envelope, one after the other; a
throwing/rejecting handler is caught (its error is logged) and the loop
continues with the next handler. The returned list records, per
registered key, the outcome of its handler. -/
def runHandlers : Subscriptions → MessageEnvelope → List (String × Except String Unit)
  | [], _ => []
  | (k, h) :: rest, env => (k, h env) :: runHandlers rest env

/-- The subscription callback installed by initialize (lines 23-47): on
a message received from the channel, persist the envelope under its id
with a 24-hour TTL, then dispatch to every registered handler. No
failure propagates out of the callback. -/
def receiveMessage (subs : Subscriptions) (env : MessageEnvelope) (st : RStore) :
    RStore × List (String × Except String Unit) :=
  let st1 := redisSet st (.msg env.id) (.msg env) (some 86400)
  (st1, runHandlers subs env)

/-- RedisMessageBroker.getMessage (lines 78-81). -/
def getMessage (st : RStore) (id : String) : Option MessageEnvelope :=
  match redisGet st (.msg id) with
  | some (.msg e) => some e
  | _ => none

/-- broadcastMessage of the RedisMessageBroker variant that defines it
(src/unnamed/part_014): publish the raw message once on the broker's
shared channel. No store read, no envelope construction, no recipient
enumeration. The message-broker.ts under src/src does not define this
method at all, so against that broker the delegating call in
redis/index.ts rejects with a TypeError instead. -/
def broadcastMessage (message : AgentMessage) (st : RStore) :
    RStore × List AgentMessage :=
  (st, [message])

end RedisMessageBroker

namespace RedisDiscoveryService

/-- The mutable timer/subscription state of RedisDiscoveryService next
to the shared store. heartbeatTimer is one field of the service, not a
per-agent map: `some id` stands for the single active interval timer,
whose closure refreshes the record of agent id. sweepTimer is the
cleanup interval started by initialize. -/
structure DiscoveryState where
  store : RStore
  heartbeatAgent : Option String := none
  sweepTimer : Bool := false
deriving Repr

inductive DiscEventType
  | add | remove | update
deriving DecidableEq, Repr

structure DiscEvent where
  type : DiscEventType
  agent : AgentInfo
deriving DecidableEq, Repr

/-- RedisDiscoveryService.stopHeartbeat (discovery-service.ts lines
231-236): clearInterval on the single heartbeat timer. -/
def stopHeartbeat (ds : DiscoveryState) : DiscoveryState :=
  { ds with heartbeatAgent := none }

/-- RedisDiscoveryService.startHeartbeat (lines 204-229): stop the
existing heartbeat timer, then start an interval that refreshes agentId's
record. -/
def startHeartbeat (ds : DiscoveryState) (agentId : String) : DiscoveryState :=
  let ds1 := stopHeartbeat ds
  { ds1 with heartbeatAgent := some agentId }

/-- One firing of the heartbeat interval: re-read the tracked agent's
record and, when present, rewrite it with lastHeartbeat := now and the
24h TTL re-applied. -/
def heartbeatTick (now : Nat) (ds : DiscoveryState) : DiscoveryState :=
  match ds.heartbeatAgent with
  | none => ds
  | some id =>
    match redisGet ds.store (.agent id) with
    | some (.agent reg) =>
        let reg2 := { reg with lastHeartbeat := now }
        { ds with store := redisSet ds.store (.agent id) (.agent reg2) (some 86400) }
    | _ => ds

/-- RedisDiscoveryService.registerAgent (lines 78-106): store the
registration with the 24h TTL, publish an add event, start the
heartbeat for this id. -/
def registerAgent (now : Nat) (info : AgentInfo) (ds : DiscoveryState) :
    DiscoveryState × List DiscEvent :=
  let reg := AgentRegistration.ofInfo info now
  let st1 := redisSet ds.store (.agent info.id) (.agent reg) (some 86400)
  let ds1 := startHeartbeat { ds with store := st1 } info.id
  (ds1, [⟨.add, info⟩])

/-- RedisDiscoveryService.unregisterAgent (lines 108-128): if the record
exists, delete it and publish a remove event; either way, stop the
(single) heartbeat timer. -/
def unregisterAgent (id : String) (ds : DiscoveryState) :
    DiscoveryState × List DiscEvent :=
  match redisGet ds.store (.agent id) with
  | some (.agent reg) =>
      let st1 := redisDel ds.store (.agent id)
      (stopHeartbeat { ds with store := st1 }, [⟨.remove, reg.toAgentInfo⟩])
  | _ => (stopHeartbeat ds, [])

structure AgentQuery where
  role : Option String := none
  capabilities : Option (List String) := none
  status : Option AgentStatus := none
deriving Repr

/-- The filter of findAgents (lines 177-195). A JS empty-string role is
falsy, so role "" imposes no constraint; a capabilities array and a
status value are always truthy. -/
def matchesQuery (q : AgentQuery) (a : AgentRegistration) : Bool :=
  (match q.role with
   | some r => r = "" || a.role = r
   | none => true) &&
  (match q.capabilities with
   | some caps => caps.all (fun cap => a.capabilities.contains cap)
   | none => true) &&
  (match q.status with
   | some s => a.status = s
   | none => true)

/-- RedisDiscoveryService.findAgents (lines 160-196): KEYS agent:*, GET
each record (agentsOf), filter by the query. -/
def findAgents (st : RStore) (q : AgentQuery) : List AgentRegistration :=
  (agentsOf st).filter (matchesQuery q)

end RedisDiscoveryService

namespace BaseBackplane

open RedisDiscoveryService RedisContextManager

inductive BPError
  | notConnected
  | alreadyConnected
deriving DecidableEq, Repr

/-- The services beneath an abstract BaseBackplane (base.ts is abstract
over its MessageBroker and over initializeServices): a service-state
type with the three operations connect invokes. Each fallible operation
returns (succeeded?, state after the call). -/
structure ServiceOps (σ : Type) where
  brokerConnect : σ → Bool × σ
  brokerDisconnect : σ → σ
  initializeServices : σ → Bool × σ

structure BaseBP (σ : Type) where
  connected : Bool
  services : σ

/-- BaseBackplane.disconnect (base.ts lines 39-47): return immediately
when not connected; otherwise disconnect the broker and (finally) clear
the connected flag. -/
def bbDisconnect {σ : Type} (ops : ServiceOps σ) (b : BaseBP σ) : BaseBP σ :=
  if ¬ b.connected then b
  else { connected := false, services := ops.brokerDisconnect b.services }

/-- BaseBackplane.connect (base.ts lines 21-37): refuse when already
connected; otherwise connect the broker, run initializeServices, set
connected := true; on any failure, catch, await this.disconnect() and
rethrow. Returns (succeeded?, resulting state). Note that in the catch
block this.connected is still false, so the disconnect call hits its
early return. -/
def bbConnect {σ : Type} (ops : ServiceOps σ) (b : BaseBP σ) : Bool × BaseBP σ :=
  if b.connected then (false, b)
  else
    let r1 := ops.brokerConnect b.services
    if ¬ r1.1 then
      (false, bbDisconnect ops { connected := false, services := r1.2 })
    else
      let r2 := ops.initializeServices r1.2
      if ¬ r2.1 then
        (false, bbDisconnect ops { connected := false, services := r2.2 })
      else (true, { connected := true, services := r2.2 })

/-- The envelope BaseBackplane builds for one recipient (base.ts lines
52-62 and 84-94): fresh generated id, routing.source and priority from
the message metadata, empty envelope metadata. -/
def mkEnvelope (genId : String) (now : Nat) (message : AgentMessage)
    (target : String) : MessageEnvelope :=
  { id := genId, timestamp := now, message := message,
    routing := { source := message.metadata.sender, target := target,
                 priority := message.metadata.priority },
    metadata := {} }

/-- BaseBackplane.sendMessage (lines 49-65): ensureConnected, then
publish one envelope whose routing.target is message.metadata.sender
(the code sets target from the sender field). -/
def sendMessage (connected : Bool) (now : Nat) (genId : String)
    (message : AgentMessage) : Except BPError MessageEnvelope :=
  if ¬ connected then .error .notConnected
  else .ok (mkEnvelope genId now message message.metadata.sender)

/-- BaseBackplane.broadcastMessage (lines 67-99): ensureConnected, find
the agents with status active, apply the caller's filter when given,
and publish one fresh envelope per remaining agent with routing.target
that agent's id. genId i is the id returned by the i-th generateId()
call. The returned list is the list of published envelopes. -/
def broadcastMessage (connected : Bool) (st : RStore) (now : Nat)
    (genId : Nat → String) (message : AgentMessage)
    (filter : Option (AgentInfo → Bool)) :
    Except BPError (List MessageEnvelope) :=
  if ¬ connected then .error .notConnected
  else
    let agents : List AgentRegistration := findAgents st { status := some .active }
    let targets : List AgentRegistration :=
      match filter with
      | some f => agents.filter (fun a => f a.toAgentInfo)
      | none => agents
    .ok (targets.enum.map (fun p => mkEnvelope (genId p.1) now message p.2.id))

/-- BaseBackplane.shareContext (lines 101-124): ensureConnected, create
a branch of contextId for the target, read the shared context, and sync
it to the branch id as an update event. -/
def shareContext (connected : Bool) (now : Nat)
    (contextId targetAgentId : String) (st : RStore) :
    Except BPError (String × RStore × List ContextSyncEvent) :=
  if ¬ connected then .error .notConnected
  else
    let r := createContextBranch now contextId targetAgentId st
    let context := getSharedContext r.2 contextId
    let r2 := syncContext now
      { type := .update, agentId := targetAgentId, contextId := r.1,
        nodes := context, timestamp := now, metadata := {} } r.2
    .ok (r.1, r2.1, r2.2)

/-- BaseBackplane.findCollaborators (lines 126-135): ensureConnected,
then findAgents with the requirements plus status active. -/
def findCollaborators (connected : Bool) (st : RStore)
    (role : Option String) (capabilities : Option (List String)) :
    Except BPError (List AgentRegistration) :=
  if ¬ connected then .error .notConnected
  else .ok (findAgents st { role := role, capabilities := capabilities,
                            status := some .active })

end BaseBackplane

namespace RedisBackplane

/-- The connection state of RedisBackplane (redis/index.ts): the shared
client, whether discoveryService.initialize ran (subscriber + sweep
timer), and the isConnected flag. -/
structure RedisBPState where
  clientConnected : Bool := false
  discoveryInitialized : Bool := false
  isConnected : Bool := false
deriving DecidableEq, Repr

/-- RedisBackplane.connect (redis/index.ts lines 42-57): when not
already connected, client.connect() then discoveryService.initialize(),
then isConnected := true; a failure is logged and rethrown with no
rollback. clientOk / initOk are the outcomes of the two awaits. Returns
(succeeded?, resulting state). -/
def rdConnect (clientOk initOk : Bool) (s : RedisBPState) : Bool × RedisBPState :=
  if s.isConnected then (true, s)
  else if ¬ clientOk then (false, s)
  else
    let s1 := { s with clientConnected := true }
    if ¬ initOk then (false, s1)
    else (true, { s1 with discoveryInitialized := true, isConnected := true })

/-- RedisBackplane.broadcastMessage (redis/index.ts lines 114-129): log,
then delegate to messageBroker.broadcastMessage(message) — a single
publish of the raw message on the shared channel, with no discovery
lookup, no filter and no per-recipient envelopes. The override replaces
the fan-out of BaseBackplane.broadcastMessage on the concrete backplane. -/
def broadcastMessage (message : AgentMessage) (st : RStore) :
    RStore × List AgentMessage :=
  RedisMessageBroker.broadcastMessage message st

/-- RedisBackplane.cleanup (lines 75-89): a no-op when not connected;
otherwise discoveryService.cleanup() (stop timers, quit the subscriber)
then disconnect() (client.quit(), isConnected := false). discOk /
quitOk are the outcomes of the two awaits; an error result models the
rethrown exception. -/
def rdCleanup (discOk quitOk : Bool) (s : RedisBPState) :
    Except Unit RedisBPState :=
  if ¬ s.isConnected then .ok s
  else if ¬ discOk then .error ()
  else
    let s1 := { s with discoveryInitialized := false }
    if ¬ quitOk then .error ()
    else .ok { s1 with clientConnected := false, isConnected := false }

end RedisBackplane

/-! Concrete instances used to evaluate the model. -/

def nodeA : ContextNode :=
  { id := "n1", type := .thought, content := "alpha", timestamp := 1 }

def nodeB : ContextNode :=
  { id := "n2", type := .result, content := "beta", timestamp := 2 }

def msgA : AgentMessage :=
  { type := .request, content := "hi",
    metadata := { sender := "a", priority := 1, requiresResponse := false } }

def envA : MessageEnvelope :=
  { id := "m1", timestamp := 3, message := msgA,
    routing := { source := "a", target := "b", priority := 1 }, metadata := {} }

def infoA : AgentInfo :=
  { id := "a", role := "dev", capabilities := ["code"], status := .active,
    lastSeen := 0 }

def infoB : AgentInfo :=
  { id := "b", role := "qa", capabilities := ["test"], status := .active,
    lastSeen := 0 }

def infoC : AgentInfo :=
  { id := "c", role := "dev", capabilities := ["code"], status := .idle,
    lastSeen := 0 }

/-- A store holding one context list under id S. -/
def ctxStoreA : RStore := [⟨.ctx "S", .ctx [nodeA], some (86400 * 7)⟩]

/-- An update sync event addressed to context S. -/
def evUpd : ContextSyncEvent :=
  { type := .update, agentId := "T", contextId := "S", nodes := [nodeB],
    timestamp := 6, metadata := {} }

/-- A delete sync event for context S. -/
def evDel : ContextSyncEvent :=
  { type := .delete, agentId := "x", contextId := "S", nodes := [],
    timestamp := 9, metadata := {} }

/-- A branch record of S for T created at t=5. -/
def brDemo : ContextBranch :=
  { id := "S-T-5", sourceId := "S", targetId := "T", nodes := [nodeA],
    createdAt := 5, lastSync := 5 }

/-- A store holding the context S and one branch record of it. -/
def ctxStoreB : RStore :=
  [⟨.ctx "S", .ctx [nodeA], some (86400 * 7)⟩,
   ⟨.branch "S-T-5", .branch brDemo, none⟩]

/-- A store holding registrations for infoA, infoB (active) and infoC
(idle). -/
def agentStoreA : RStore :=
  [⟨.agent "a", .agent (AgentRegistration.ofInfo infoA 0), some 86400⟩,
   ⟨.agent "b", .agent (AgentRegistration.ofInfo infoB 0), some 86400⟩,
   ⟨.agent "c", .agent (AgentRegistration.ofInfo infoC 0), some 86400⟩]

/-- Services for the abstract BaseBackplane whose state is a single
broker-connected flag: messageBroker.connect succeeds (connecting the
broker), initializeServices fails. -/
def demoOps : BaseBackplane.ServiceOps Bool :=
  { brokerConnect := fun _ => (true, true),
    brokerDisconnect := fun _ => false,
    initializeServices := fun s => (false, s) }

/-- The branch record createContextBranch builds at time ts for the
(S, T) pair when the source snapshot is nodes. -/
def branchRecord (S T : String) (nodes : List ContextNode) (ts : Nat) : ContextBranch :=
  { id := S ++ "-" ++ T ++ "-" ++ toString ts, sourceId := S, targetId := T,
    nodes := nodes, createdAt := ts, lastSync := ts }

/-- The store entry holding such a branch record (stored without TTL). -/
def branchEntry (S T : String) (nodes : List ContextNode) (ts : Nat) : StoreEntry :=
  ⟨.branch (S ++ "-" ++ T ++ "-" ++ toString ts), .branch (branchRecord S T nodes ts), none⟩

/-- The update event mergeContextBranch sends to the target T when
merging the branch of (S, T) created at bts, at merge time mts. -/
def mergeEvent (S T : String) (nodes : List ContextNode) (bts mts : Nat) : ContextSyncEvent :=
  { type := .update, agentId := T, contextId := T, nodes := nodes, timestamp := mts,
    metadata := { mergedFrom := some S,
                  branchId := some (S ++ "-" ++ T ++ "-" ++ toString bts) } }

/-- Key/value consistency of the agent namespace: a registration is
stored under the key of its own id (every store reachable through
registerAgent satisfies this). -/
def agentKeyConsistent (e : StoreEntry) : Bool :=
  match e.key, e.val with
  | .agent id, .agent r => r.id = id
  | .agent _, _ => false
  | _, _ => true

/-! Helper lemmas about the store model. -/

theorem redisEntry_redisSet_self (st : RStore) (k : RKey) (v : RVal)
    (t : Option Nat) : redisEntry (redisSet st k v t) k = some ⟨k, v, t⟩ := by
  induction st with
  | nil => simp [redisSet, redisEntry]
  | cons e es ih =>
      by_cases h : e.key = k
      · simp [redisSet, redisEntry, h]
      · simp [redisSet, redisEntry, h, ih]

theorem redisEntry_redisSet_ne (st : RStore) (k k' : RKey) (v : RVal)
    (t : Option Nat) (h : k' ≠ k) :
    redisEntry (redisSet st k v t) k' = redisEntry st k' := by
  induction st with
  | nil => simp [redisSet, redisEntry, Ne.symm h]
  | cons e es ih =>
      by_cases he : e.key = k
      · have he' : e.key ≠ k' := by rw [he]; exact Ne.symm h
        simp [redisSet, redisEntry, he, he', Ne.symm h]
      · by_cases he' : e.key = k'
        · simp [redisSet, redisEntry, he, he', h]
        · simp [redisSet, redisEntry, he, he', ih]

theorem redisGet_redisSet_self (st : RStore) (k : RKey) (v : RVal)
    (t : Option Nat) : redisGet (redisSet st k v t) k = some v := by
  simp [redisGet, redisEntry_redisSet_self]

theorem redisGet_redisSet_ne (st : RStore) (k k' : RKey) (v : RVal)
    (t : Option Nat) (h : k' ≠ k) :
    redisGet (redisSet st k v t) k' = redisGet st k' := by
  simp [redisGet, redisEntry_redisSet_ne st k k' v t h]

theorem redisSet_of_not_mem (st : RStore) (k : RKey) (v : RVal) (t : Option Nat)
    (h : ∀ e ∈ st, e.key ≠ k) : redisSet st k v t = st ++ [⟨k, v, t⟩] := by
  induction st with
  | nil => simp [redisSet]
  | cons e es ih =>
      have hek : e.key ≠ k := h e (by simp)
      simp only [redisSet, if_neg hek, List.cons_append, List.cons.injEq, true_and]
      exact ih (fun e' he' => h e' (by simp [he']))

theorem redisEntry_eq_none (st : RStore) (k : RKey)
    (h : ∀ e ∈ st, e.key ≠ k) : redisEntry st k = none := by
  induction st with
  | nil => rfl
  | cons e es ih =>
      simp [redisEntry, h e (by simp)]
      exact ih (fun e' he' => h e' (by simp [he']))

theorem mem_of_redisEntry_eq_some (st : RStore) (k : RKey) (e : StoreEntry)
    (h : redisEntry st k = some e) : e ∈ st ∧ e.key = k := by
  induction st with
  | nil => simp [redisEntry] at h
  | cons e' es ih =>
      by_cases he : e'.key = k
      · simp [redisEntry, he] at h
        subst h
        exact ⟨by simp, he⟩
      · simp only [redisEntry, if_neg he] at h
        obtain ⟨hmem, hk⟩ := ih h
        exact ⟨by simp [hmem], hk⟩

theorem redisEntry_append (l1 l2 : RStore) (k : RKey) :
    redisEntry (l1 ++ l2) k =
      match redisEntry l1 k with
      | some e => some e
      | none => redisEntry l2 k := by
  induction l1 with
  | nil => simp [redisEntry]
  | cons e es ih =>
      by_cases he : e.key = k
      · simp [redisEntry, he]
      · simp [redisEntry, he, ih]

theorem not_mem_of_redisEntry_eq_none (st : RStore) (k : RKey)
    (h : redisEntry st k = none) : ∀ e ∈ st, e.key ≠ k := by
  induction st with
  | nil => simp
  | cons e es ih =>
      by_cases he : e.key = k
      · simp [redisEntry, he] at h
      · simp only [redisEntry, if_neg he] at h
        intro e' he'
        rcases List.mem_cons.mp he' with h1 | h1
        · rw [h1]; exact he
        · exact ih h e' h1

theorem redisEntry_redisDel_self (st : RStore) (k : RKey) :
    redisEntry (redisDel st k) k = none := by
  induction st with
  | nil => rfl
  | cons e es ih =>
      by_cases he : e.key = k
      · simpa [redisDel, he] using ih
      · simpa [redisDel, he, redisEntry] using ih

theorem redisGet_redisDel_self (st : RStore) (k : RKey) :
    redisGet (redisDel st k) k = none := by
  simp [redisGet, redisEntry_redisDel_self]

theorem redisEntry_redisDel_ne (st : RStore) (k k' : RKey) (h : k' ≠ k) :
    redisEntry (redisDel st k) k' = redisEntry st k' := by
  induction st with
  | nil => rfl
  | cons e es ih =>
      by_cases he : e.key = k
      · have he' : e.key ≠ k' := by rw [he]; exact Ne.symm h
        simpa [redisDel, he, redisEntry, he', Ne.symm h] using ih
      · by_cases he' : e.key = k'
        · simp [redisDel, he, redisEntry, he', h]
        · simpa [redisDel, he, redisEntry, he'] using ih

theorem redisGet_redisDel_ne (st : RStore) (k k' : RKey) (h : k' ≠ k) :
    redisGet (redisDel st k) k' = redisGet st k' := by
  simp [redisGet, redisEntry_redisDel_ne st k k' h]

theorem redisEntry_redisDelAll_mem (st : RStore) (ks : List RKey) (k : RKey)
    (h : k ∈ ks) : redisEntry (redisDelAll st ks) k = none := by
  induction st with
  | nil => rfl
  | cons e es ih =>
      by_cases he : e.key ∈ ks
      · simpa [redisDelAll, he] using ih
      · have he' : e.key ≠ k := by intro hx; rw [hx] at he; exact he h
        simpa [redisDelAll, he, redisEntry, he'] using ih

theorem redisEntry_redisDelAll_not_mem (st : RStore) (ks : List RKey) (k : RKey)
    (h : k ∉ ks) : redisEntry (redisDelAll st ks) k = redisEntry st k := by
  induction st with
  | nil => rfl
  | cons e es ih =>
      by_cases he : e.key ∈ ks
      · have he' : e.key ≠ k := by intro hx; rw [hx] at he; exact h he
        simpa [redisDelAll, he, redisEntry, he'] using ih
      · by_cases he' : e.key = k
        · simp [redisDelAll, he, redisEntry, he', h]
        · simpa [redisDelAll, he, redisEntry, he'] using ih

theorem mem_redisDel {st : RStore} {k : RKey} {e : StoreEntry}
    (h : e ∈ redisDel st k) : e ∈ st ∧ e.key ≠ k := by
  induction st with
  | nil => simp [redisDel] at h
  | cons e' es ih =>
      by_cases he' : e'.key = k
      · rw [redisDel, if_pos he'] at h
        obtain ⟨h1, h2⟩ := ih h
        exact ⟨by simp [h1], h2⟩
      · rw [redisDel, if_neg he'] at h
        rcases List.mem_cons.mp h with h1 | h1
        · subst h1; exact ⟨by simp, he'⟩
        · obtain ⟨h2, h3⟩ := ih h1
          exact ⟨by simp [h2], h3⟩

/-! String and glob helper lemmas. -/

theorem dataAppend (a b : String) : (a ++ b).data = a.data ++ b.data := rfl

theorem stringExt {a b : String} (h : a.data = b.data) : a = b := by
  cases a; cases b; exact congrArg String.mk h

theorem string_ne_of_length {a b : String}
    (h : a.data.length ≠ b.data.length) : a ≠ b := by
  intro hx
  exact h (congrArg (fun s => s.data.length) hx)

theorem dashLength : ("-" : String).data.length = 1 := rfl

theorem chainLeads_self_append (p r : List Char) :
    chainLeads p (p ++ r) = true := by
  induction p with
  | nil => rfl
  | cons c cs ih => simp [chainLeads, ih]

theorem chainLeads_length {p s : List Char} (h : chainLeads p s = true) :
    p.length ≤ s.length := by
  induction p generalizing s with
  | nil => simp
  | cons c cs ih =>
      cases s with
      | nil => simp [chainLeads] at h
      | cons d ds =>
          simp only [chainLeads, Bool.and_eq_true] at h
          simpa [List.length_cons] using Nat.succ_le_succ (ih h.2)

theorem strLeads_self_append (p r : String) : strLeads p (p ++ r) = true := by
  unfold strLeads
  rw [dataAppend]
  exact chainLeads_self_append p.data r.data

theorem strLeads_false_of_longer {p s : String}
    (h : s.data.length < p.data.length) : strLeads p s = false := by
  cases hx : strLeads p s
  · rfl
  · exact absurd (chainLeads_length hx) (Nat.not_le_of_lt h)

theorem branchId_length (S T ts : String) :
    (S ++ "-" ++ T ++ "-" ++ ts).data.length
      = S.data.length + 1 + T.data.length + 1 + ts.data.length := by
  simp [dataAppend, List.length_append, dashLength]
  omega

theorem pairLength (S T : String) :
    (S ++ "-" ++ T ++ "-").data.length
      = S.data.length + 1 + T.data.length + 1 := by
  simp [dataAppend, List.length_append, dashLength]
  omega

theorem ne_source_branchId (S T ts : String) :
    S ≠ S ++ "-" ++ T ++ "-" ++ ts := by
  apply string_ne_of_length
  rw [branchId_length]
  omega

theorem ne_target_branchId (S T ts : String) :
    T ≠ S ++ "-" ++ T ++ "-" ++ ts := by
  apply string_ne_of_length
  rw [branchId_length]
  omega

theorem branchId_ts_inj {S T ts1 ts2 : String}
    (h : S ++ "-" ++ T ++ "-" ++ ts1 = S ++ "-" ++ T ++ "-" ++ ts2) :
    ts1 = ts2 := by
  apply stringExt
  have h2 := congrArg String.data h
  rw [dataAppend, dataAppend] at h2
  exact List.append_cancel_left h2

theorem pairMatch_branchId (S T ts : String) :
    pairMatch S T (.branch (S ++ "-" ++ T ++ "-" ++ ts)) = true :=
  strLeads_self_append (S ++ "-" ++ T ++ "-") ts

theorem pairMatch_ctx (S T c : String) : pairMatch S T (.ctx c) = false := rfl

theorem pairMatch_target_false (S T : String) :
    pairMatch S T (.branch T) = false := by
  show strLeads (S ++ "-" ++ T ++ "-") T = false
  apply strLeads_false_of_longer
  rw [pairLength]
  omega

theorem mem_branchKeysForPair {st : RStore} {S T : String} {k : RKey} :
    k ∈ branchKeysForPair st S T
      ↔ (∃ e ∈ st, e.key = k) ∧ pairMatch S T k = true := by
  constructor
  · intro h
    obtain ⟨e, he, hx⟩ := List.mem_filterMap.mp h
    by_cases hp : pairMatch S T e.key
    · rw [if_pos hp] at hx
      cases hx
      exact ⟨⟨e, he, rfl⟩, hp⟩
    · rw [if_neg hp] at hx
      cases hx
  · rintro ⟨⟨e, he, hk⟩, hp⟩
    exact List.mem_filterMap.mpr ⟨e, he, by rw [hk, if_pos hp]⟩

theorem mem_branchKeysContaining {st : RStore} {c : String} {k : RKey} :
    k ∈ branchKeysContaining st c
      ↔ (∃ e ∈ st, e.key = k) ∧ ctxMatch c k = true := by
  constructor
  · intro h
    obtain ⟨e, he, hx⟩ := List.mem_filterMap.mp h
    by_cases hp : ctxMatch c e.key
    · rw [if_pos hp] at hx
      cases hx
      exact ⟨⟨e, he, rfl⟩, hp⟩
    · rw [if_neg hp] at hx
      cases hx
  · rintro ⟨⟨e, he, hk⟩, hp⟩
    exact List.mem_filterMap.mpr ⟨e, he, by rw [hk, if_pos hp]⟩

theorem branchKeysForPair_append (l1 l2 : RStore) (S T : String) :
    branchKeysForPair (l1 ++ l2) S T
      = branchKeysForPair l1 S T ++ branchKeysForPair l2 S T := by
  simp [branchKeysForPair, List.filterMap_append]

theorem branchKeysForPair_redisSet_of_mem {st : RStore} {k : RKey} {v : RVal}
    {t : Option Nat} (S T : String) (h : ∃ e ∈ st, e.key = k) :
    branchKeysForPair (redisSet st k v t) S T = branchKeysForPair st S T := by
  induction st with
  | nil => simp at h
  | cons e es ih =>
      by_cases he : e.key = k
      · simp [redisSet, he, branchKeysForPair, List.filterMap_cons]
      · rw [redisSet, if_neg he]
        have h' : ∃ e' ∈ es, e'.key = k := by
          obtain ⟨e', he', hk⟩ := h
          rcases List.mem_cons.mp he' with h1 | h1
          · exact absurd (h1 ▸ hk) he
          · exact ⟨e', h1, hk⟩
        simp only [branchKeysForPair, List.filterMap_cons] at ih ⊢
        rw [ih h']

theorem branchKeysForPair_redisSet_not_match {st : RStore} {k : RKey} {v : RVal}
    {t : Option Nat} {S T : String} (hp : pairMatch S T k = false) :
    branchKeysForPair (redisSet st k v t) S T = branchKeysForPair st S T := by
  induction st with
  | nil => simp [redisSet, branchKeysForPair, hp]
  | cons e es ih =>
      by_cases he : e.key = k
      · simp [redisSet, he, branchKeysForPair, List.filterMap_cons, hp, he ▸ hp]
      · rw [redisSet, if_neg he]
        simp only [branchKeysForPair, List.filterMap_cons] at ih ⊢
        rw [ih]

theorem exists_entry_of_redisGet_some {st : RStore} {k : RKey} {v : RVal}
    (h : redisGet st k = some v) : ∃ e ∈ st, e.key = k := by
  unfold redisGet at h
  cases hE : redisEntry st k with
  | none => rw [hE] at h; cases h
  | some e =>
      obtain ⟨h1, h2⟩ := mem_of_redisEntry_eq_some st k e hE
      exact ⟨e, h1, h2⟩

theorem redisGet_append_ne (st : RStore) (e : StoreEntry) (k : RKey)
    (h : e.key ≠ k) : redisGet (st ++ [e]) k = redisGet st k := by
  unfold redisGet
  rw [redisEntry_append]
  cases redisEntry st k with
  | none => simp [redisEntry, h]
  | some e' => rfl

theorem redisGet_append_self (st : RStore) (e : StoreEntry)
    (h : redisEntry st e.key = none) : redisGet (st ++ [e]) e.key = some e.val := by
  unfold redisGet
  rw [redisEntry_append, h]
  simp [redisEntry]

/-! Lemmas about syncContext. -/

theorem syncContext_snd (now : Nat) (e : ContextSyncEvent) (st : RStore) :
    (RedisContextManager.syncContext now e st).2 = [e] := by
  unfold RedisContextManager.syncContext
  dsimp only
  split <;> rfl

theorem syncContext_get_ctx_self (now : Nat) (e : ContextSyncEvent) (st : RStore) :
    redisGet (RedisContextManager.syncContext now e st).1 (.ctx e.contextId)
      = some (.ctx e.nodes) := by
  unfold RedisContextManager.syncContext
  dsimp only
  split
  · rw [redisGet_redisSet_ne _ _ _ _ _ (by simp), redisGet_redisSet_self]
  · rw [redisGet_redisSet_self]

theorem syncContext_get_ctx_at (now : Nat) (e : ContextSyncEvent) (st : RStore)
    (c : String) (hc : e.contextId = c) :
    redisGet (RedisContextManager.syncContext now e st).1 (.ctx c)
      = some (.ctx e.nodes) := by
  subst hc
  exact syncContext_get_ctx_self now e st

theorem syncContext_get_other (now : Nat) (e : ContextSyncEvent) (st : RStore)
    (k : RKey) (h1 : k ≠ .ctx e.contextId) (h2 : k ≠ .branch e.contextId) :
    redisGet (RedisContextManager.syncContext now e st).1 k = redisGet st k := by
  unfold RedisContextManager.syncContext
  dsimp only
  split
  · rw [redisGet_redisSet_ne _ _ _ _ _ h2, redisGet_redisSet_ne _ _ _ _ _ h1]
  · rw [redisGet_redisSet_ne _ _ _ _ _ h1]

theorem branchKeysForPair_syncContext (now : Nat) (e : ContextSyncEvent)
    (st : RStore) (S T : String)
    (hb : pairMatch S T (.branch e.contextId) = false) :
    branchKeysForPair (RedisContextManager.syncContext now e st).1 S T
      = branchKeysForPair st S T := by
  unfold RedisContextManager.syncContext
  dsimp only
  split
  · rw [branchKeysForPair_redisSet_not_match hb,
      branchKeysForPair_redisSet_not_match (pairMatch_ctx S T e.contextId)]
  · rw [branchKeysForPair_redisSet_not_match (pairMatch_ctx S T e.contextId)]

/-! Lemmas about the agent namespace. -/

theorem agentsOf_cons (e : StoreEntry) (st : RStore) :
    agentsOf (e :: st)
      = (match e.key, e.val with
         | .agent _, .agent r => r :: agentsOf st
         | .agent _, _ => agentsOf st
         | _, _ => agentsOf st) := by
  cases hk : e.key <;> cases hv : e.val <;>
    simp [agentsOf, agentEntries, List.filter_cons, hk, hv]

theorem mem_agentKey_of_mem_agentsOf {st : RStore} {r : AgentRegistration}
    (hcons : ∀ e ∈ st, agentKeyConsistent e = true) (h : r ∈ agentsOf st) :
    RKey.agent r.id ∈ st.map (fun e => e.key) := by
  induction st with
  | nil => simp [agentsOf, agentEntries] at h
  | cons e es ih =>
      have hce := hcons e (by simp)
      have hcons' : ∀ e' ∈ es, agentKeyConsistent e' = true :=
        fun e' he' => hcons e' (by simp [he'])
      rw [agentsOf_cons] at h
      cases hk : e.key with
      | agent id =>
          cases hv : e.val with
          | agent r' =>
              rw [hk, hv] at h
              simp only [agentKeyConsistent, hk, hv, decide_eq_true_eq] at hce
              rcases List.mem_cons.mp h with h1 | h1
              · subst h1
                simp [hk, hce]
              · simp [ih hcons' h1]
          | ctx ns => simp [agentKeyConsistent, hk, hv] at hce
          | branch b => simp [agentKeyConsistent, hk, hv] at hce
          | msg m => simp [agentKeyConsistent, hk, hv] at hce
      | ctx id =>
          rw [hk] at h
          cases hv : e.val <;> rw [hv] at h <;> simp [ih hcons' h]
      | branch id =>
          rw [hk] at h
          cases hv : e.val <;> rw [hv] at h <;> simp [ih hcons' h]
      | msg id =>
          rw [hk] at h
          cases hv : e.val <;> rw [hv] at h <;> simp [ih hcons' h]

theorem nodup_agentsOf_ids {st : RStore}
    (hnd : (st.map (fun e => e.key)).Nodup)
    (hcons : ∀ e ∈ st, agentKeyConsistent e = true) :
    ((agentsOf st).map (fun r => r.id)).Nodup := by
  induction st with
  | nil => simp [agentsOf, agentEntries]
  | cons e es ih =>
      simp only [List.map_cons, List.nodup_cons] at hnd
      have hcons' : ∀ e' ∈ es, agentKeyConsistent e' = true :=
        fun e' he' => hcons e' (by simp [he'])
      have hce := hcons e (by simp)
      rw [agentsOf_cons]
      cases hk : e.key with
      | agent id =>
          cases hv : e.val with
          | agent r =>
              simp only [agentKeyConsistent, hk, hv, decide_eq_true_eq] at hce
              simp only [List.map_cons, List.nodup_cons]
              refine ⟨?_, ih hnd.2 hcons'⟩
              intro hmem
              obtain ⟨r', hr', hid⟩ := List.mem_map.mp hmem
              have := mem_agentKey_of_mem_agentsOf hcons' hr'
              rw [hid] at this
              rw [hce] at this
              exact hnd.1 (hk ▸ this)
          | ctx ns => simp [agentKeyConsistent, hk, hv] at hce
          | branch b => simp [agentKeyConsistent, hk, hv] at hce
          | msg m => simp [agentKeyConsistent, hk, hv] at hce
      | ctx id => cases hv : e.val <;> exact ih hnd.2 hcons'
      | branch id => cases hv : e.val <;> exact ih hnd.2 hcons'
      | msg id => cases hv : e.val <;> exact ih hnd.2 hcons'

/-! The claims. -/

/-- C1: the spec requires a failing connect to leave the backplane fully
disconnected (rollback via disconnect), with the connection state and
the underlying services equal to their state before the call. The code
does not achieve this. BaseBackplane.connect's catch block does call
disconnect(), but this.connected is still false at that point, so
disconnect hits its early return and messageBroker.disconnect() never
runs: with a broker whose connect succeeded and an initializeServices
that failed (demoOps, from the all-disconnected initial state), the
broker is left connected (services = true, initially false) while the
connect call reports failure. RedisBackplane.connect performs no
rollback at all: after client.connect() succeeds and
discoveryService.initialize() fails, the Redis client is left connected. -/
theorem connect_failure_leaves_partial_state :
    (BaseBackplane.bbConnect demoOps { connected := false, services := false }).1 = false
    ∧ (BaseBackplane.bbConnect demoOps { connected := false, services := false }).2.connected = false
    ∧ (BaseBackplane.bbConnect demoOps { connected := false, services := false }).2.services = true
    ∧ (RedisBackplane.rdConnect true false {}).1 = false
    ∧ ((RedisBackplane.rdConnect true false {}).2).clientConnected = true := by
  exact ⟨rfl, rfl, rfl, rfl, rfl⟩

/-- C3 counterexample: the claim says that after publish returns,
getMessage(envelope.id) returns the envelope. But publish only emits on
the channel and writes nothing to the store: on the empty store,
publish(envA) leaves the store empty and getMessage(envA.id) is none. -/
theorem publish_alone_does_not_persist :
    (RedisMessageBroker.publish [] envA).2 = [envA]
    ∧ (RedisMessageBroker.publish [] envA).1 = []
    ∧ RedisMessageBroker.getMessage (RedisMessageBroker.publish [] envA).1 envA.id = none := by
  exact ⟨rfl, rfl, rfl⟩

/-- C3 amended: publish emits the serialized envelope on the broker's
channel and leaves the store unchanged; the persistent copy under the
envelope's id with the 24-hour expiry is written by the subscription
callback when the envelope is received from the channel, after which
getMessage(envelope.id) returns that envelope. -/
theorem publish_persists_on_receive (st : RStore)
    (subs : RedisMessageBroker.Subscriptions) (env : MessageEnvelope) :
    RedisMessageBroker.publish st env = (st, [env])
    ∧ RedisMessageBroker.getMessage
        (RedisMessageBroker.receiveMessage subs env st).1 env.id = some env
    ∧ redisEntry (RedisMessageBroker.receiveMessage subs env st).1 (.msg env.id)
        = some ⟨.msg env.id, .msg env, some 86400⟩ := by
  refine ⟨rfl, ?_, ?_⟩
  · unfold RedisMessageBroker.getMessage RedisMessageBroker.receiveMessage
    rw [redisGet_redisSet_self]
  · unfold RedisMessageBroker.receiveMessage
    exact redisEntry_redisSet_self st (.msg env.id) (.msg env) (some 86400)

/-- C5 counterexample: the claim says the Discovery Service keeps a
heartbeat active per registered agent, and that registering or
unregistering a different agent does not stop another registered
agent's heartbeat. But the service holds a single heartbeatTimer field:
after registering "a" (at t=0) and then "b" (at t=1), "a" is still
registered yet the timer now tracks only "b" — a heartbeat tick at
t=99 refreshes b's lastHeartbeat and leaves a's at 0 — and
unregistering "a" clears the timer entirely, leaving the still
registered "b" with no heartbeat at all. -/
theorem heartbeat_is_not_per_agent :
    (((RedisDiscoveryService.registerAgent 1 infoB
        (RedisDiscoveryService.registerAgent 0 infoA ⟨[], none, false⟩).1).1).heartbeatAgent
      = some "b")
    ∧ (redisGet ((RedisDiscoveryService.registerAgent 1 infoB
        (RedisDiscoveryService.registerAgent 0 infoA ⟨[], none, false⟩).1).1).store
        (.agent "a") = some (.agent (AgentRegistration.ofInfo infoA 0)))
    ∧ (redisGet (RedisDiscoveryService.heartbeatTick 99
        ((RedisDiscoveryService.registerAgent 1 infoB
          (RedisDiscoveryService.registerAgent 0 infoA ⟨[], none, false⟩).1).1)).store
        (.agent "a") = some (.agent (AgentRegistration.ofInfo infoA 0)))
    ∧ (redisGet (RedisDiscoveryService.heartbeatTick 99
        ((RedisDiscoveryService.registerAgent 1 infoB
          (RedisDiscoveryService.registerAgent 0 infoA ⟨[], none, false⟩).1).1)).store
        (.agent "b")
      = some (.agent { AgentRegistration.ofInfo infoB 1 with lastHeartbeat := 99 }))
    ∧ (((RedisDiscoveryService.unregisterAgent "a"
        ((RedisDiscoveryService.registerAgent 1 infoB
          (RedisDiscoveryService.registerAgent 0 infoA ⟨[], none, false⟩).1).1)).1).heartbeatAgent
      = none)
    ∧ (redisGet ((RedisDiscoveryService.unregisterAgent "a"
        ((RedisDiscoveryService.registerAgent 1 infoB
          (RedisDiscoveryService.registerAgent 0 infoA ⟨[], none, false⟩).1).1)).1).store
        (.agent "b") = some (.agent (AgentRegistration.ofInfo infoB 1))) := by
  exact ⟨by decide, by decide, by decide, by decide, by decide, by decide⟩

/-- C5 amended: the Discovery Service maintains a single heartbeat
timer tracking the most recently registered agent, not one per agent:
startHeartbeat clears the existing timer before starting the new one
(so re-registering an id restarts its heartbeat without running two
timers), every registerAgent leaves the timer on the new agent's id,
and every unregisterAgent — for any id — stops the timer. -/
theorem single_heartbeat_timer :
    (∀ ds id, RedisDiscoveryService.startHeartbeat ds id
        = { RedisDiscoveryService.stopHeartbeat ds with heartbeatAgent := some id })
    ∧ (∀ ds now info,
        ((RedisDiscoveryService.registerAgent now info ds).1).heartbeatAgent = some info.id)
    ∧ (∀ ds now now2 info,
        ((RedisDiscoveryService.registerAgent now2 info
          (RedisDiscoveryService.registerAgent now info ds).1).1).heartbeatAgent
          = some info.id)
    ∧ (∀ ds id, ((RedisDiscoveryService.unregisterAgent id ds).1).heartbeatAgent = none) := by
  refine ⟨fun ds id => rfl, fun ds now info => rfl, fun ds now now2 info => rfl, ?_⟩
  intro ds id
  unfold RedisDiscoveryService.unregisterAgent
  cases hx : redisGet ds.store (.agent id) with
  | none => rfl
  | some v => cases v <;> rfl

/-- C8: on an envelope received from the channel, the broker persists it
and then invokes every currently registered handler with it — the
dispatch is one entry per registered key, each applied to the very same
envelope, with no inspection of routing.target — and a handler that
fails is recorded (caught and logged) without stopping the dispatch to
the handlers after it and without any failure escaping the callback. -/
theorem dispatch_invokes_every_handler (subs : RedisMessageBroker.Subscriptions)
    (env : MessageEnvelope) (st : RStore) :
    RedisMessageBroker.runHandlers subs env = subs.map (fun p => (p.1, p.2 env))
    ∧ (RedisMessageBroker.runHandlers subs env).map Prod.fst = subs.map Prod.fst
    ∧ RedisMessageBroker.receiveMessage subs env st
        = (redisSet st (.msg env.id) (.msg env) (some 86400),
           RedisMessageBroker.runHandlers subs env)
    ∧ (∀ (k : String) (er : String) (rest : RedisMessageBroker.Subscriptions),
        RedisMessageBroker.runHandlers ((k, fun _ => Except.error er) :: rest) env
          = (k, Except.error er) :: RedisMessageBroker.runHandlers rest env) := by
  have hmap : RedisMessageBroker.runHandlers subs env
      = subs.map (fun p => (p.1, p.2 env)) := by
    induction subs with
    | nil => rfl
    | cons p ps ih => rw [RedisMessageBroker.runHandlers, ih]; rfl
  refine ⟨hmap, ?_, rfl, fun k er rest => rfl⟩
  rw [hmap, List.map_map]
  rfl

/-- C10: branching a source with no stored context does not fail:
createContextBranch returns the composite branch id and stores a branch
record whose nodes are the empty list (getSharedContext of a missing
key is []). -/
theorem createContextBranch_of_missing_source (st : RStore) (now : Nat)
    (S T : String) (h : redisGet st (.ctx S) = none) :
    (RedisContextManager.createContextBranch now S T st).1
      = S ++ "-" ++ T ++ "-" ++ toString now
    ∧ redisGet (RedisContextManager.createContextBranch now S T st).2
        (.branch (S ++ "-" ++ T ++ "-" ++ toString now))
      = some (.branch
          { id := S ++ "-" ++ T ++ "-" ++ toString now, sourceId := S, targetId := T,
            nodes := [], createdAt := now, lastSync := now }) := by
  have hgs : RedisContextManager.getSharedContext st S = [] := by
    unfold RedisContextManager.getSharedContext
    rw [h]
  refine ⟨rfl, ?_⟩
  unfold RedisContextManager.createContextBranch
  dsimp only
  rw [hgs]
  exact redisGet_redisSet_self st _ _ _

/-- C10 witness: the empty store has no context for "S"; branching it
yields the branch id "S-T-7" with an empty snapshot. -/
theorem createContextBranch_of_missing_source_witness :
    redisGet ([] : RStore) (.ctx "S") = none
    ∧ ((RedisContextManager.createContextBranch 7 "S" "T" []).1
          = "S" ++ "-" ++ "T" ++ "-" ++ toString 7
       ∧ redisGet (RedisContextManager.createContextBranch 7 "S" "T" []).2
          (.branch ("S" ++ "-" ++ "T" ++ "-" ++ toString 7))
          = some (.branch
              { id := "S" ++ "-" ++ "T" ++ "-" ++ toString 7, sourceId := "S",
                targetId := "T", nodes := [], createdAt := 7, lastSync := 7 })) :=
  ⟨rfl, createContextBranch_of_missing_source [] 7 "S" "T" rfl⟩

/-- C2 counterexample: the claim says getSharedContext on the id
returned by createContextBranch yields the same nodes as
getSharedContext on the source at creation time. But the snapshot is
stored only in the branch record (branch namespace), which
getSharedContext (context namespace) never reads: with context S
holding [nodeA], the fresh branch id resolves to the empty list while
getSharedContext(S) still yields [nodeA]. -/
theorem getSharedContext_of_branch_id_empty :
    RedisContextManager.getSharedContext
        (RedisContextManager.createContextBranch 5 "S" "T" ctxStoreA).2
        (RedisContextManager.createContextBranch 5 "S" "T" ctxStoreA).1 = []
    ∧ RedisContextManager.getSharedContext
        (RedisContextManager.createContextBranch 5 "S" "T" ctxStoreA).2 "S" = [nodeA]
    ∧ RedisContextManager.getSharedContext ctxStoreA "S" = [nodeA]
    ∧ ([] : List ContextNode) ≠ [nodeA] := by
  exact ⟨by decide, by decide, by decide, by decide⟩

/-- C2 amended: createContextBranch(S, T) snapshots getSharedContext(S)
into the branch record's nodes; that snapshot is not readable through
getSharedContext on the branch id, which yields [] as long as no
context entry was written under the branch id; and a later syncContext
whose contextId is S leaves the branch record unchanged (an update
event coming back from the channel is a no-op on the store). -/
theorem branch_snapshot_lives_in_record (st : RStore) (now now2 : Nat)
    (S T : String) (e e2 : ContextSyncEvent)
    (hcid : e.contextId = S)
    (hb : redisGet st (.ctx (S ++ "-" ++ T ++ "-" ++ toString now)) = none)
    (he2 : e2.type = .update) :
    redisGet (RedisContextManager.createContextBranch now S T st).2
        (.branch (S ++ "-" ++ T ++ "-" ++ toString now))
      = some (.branch
          { id := S ++ "-" ++ T ++ "-" ++ toString now, sourceId := S, targetId := T,
            nodes := RedisContextManager.getSharedContext st S,
            createdAt := now, lastSync := now })
    ∧ RedisContextManager.getSharedContext
        (RedisContextManager.createContextBranch now S T st).2
        (S ++ "-" ++ T ++ "-" ++ toString now) = []
    ∧ redisGet (RedisContextManager.syncContext now2 e
          (RedisContextManager.createContextBranch now S T st).2).1
        (.branch (S ++ "-" ++ T ++ "-" ++ toString now))
      = redisGet (RedisContextManager.createContextBranch now S T st).2
          (.branch (S ++ "-" ++ T ++ "-" ++ toString now))
    ∧ (RedisContextManager.handleSyncEvent now2 e2 st).1 = st := by
  refine ⟨?_, ?_, ?_, ?_⟩
  · unfold RedisContextManager.createContextBranch
    dsimp only
    exact redisGet_redisSet_self st _ _ _
  · unfold RedisContextManager.getSharedContext
    unfold RedisContextManager.createContextBranch
    dsimp only
    rw [redisGet_redisSet_ne _ _ _ _ _ (by simp), hb]
  · apply syncContext_get_other
    · simp
    · rw [hcid]
      intro hx
      exact ne_source_branchId S T (toString now) (RKey.branch.inj hx).symm
  · simp [RedisContextManager.handleSyncEvent, he2]

/-- C2 amended witness: branching S (holding [nodeA]) for T at t=5;
the later syncContext at t=6 is evUpd, whose contextId is S. -/
theorem branch_snapshot_lives_in_record_witness :
    (evUpd.contextId = "S"
     ∧ redisGet ctxStoreA (.ctx ("S" ++ "-" ++ "T" ++ "-" ++ toString 5)) = none
     ∧ evUpd.type = .update)
    ∧ RedisContextManager.getSharedContext
        (RedisContextManager.createContextBranch 5 "S" "T" ctxStoreA).2
        ("S" ++ "-" ++ "T" ++ "-" ++ toString 5) = []
    ∧ redisGet (RedisContextManager.syncContext 6 evUpd
          (RedisContextManager.createContextBranch 5 "S" "T" ctxStoreA).2).1
        (.branch ("S" ++ "-" ++ "T" ++ "-" ++ toString 5))
      = redisGet (RedisContextManager.createContextBranch 5 "S" "T" ctxStoreA).2
          (.branch ("S" ++ "-" ++ "T" ++ "-" ++ toString 5)) :=
  ⟨⟨rfl, rfl, rfl⟩,
   (branch_snapshot_lives_in_record ctxStoreA 5 6 "S" "T" evUpd evUpd rfl rfl rfl).2.1,
   (branch_snapshot_lives_in_record ctxStoreA 5 6 "S" "T" evUpd evUpd rfl rfl rfl).2.2.1⟩

/-- C6: a syncContext call with a delete event publishes the event, and
once that event is delivered back through the manager's own channel
subscription (handleSyncEvent), the context key of the event's
contextId is gone, every stored branch key whose id contains that
contextId is gone, and no context entry list is left under the context
key (getSharedContext yields []). -/
theorem sync_delete_removes_context_and_branches (st : RStore) (now : Nat)
    (e : ContextSyncEvent) (hty : e.type = .delete) :
    (RedisContextManager.syncContext now e st).2 = [e]
    ∧ redisGet (RedisContextManager.syncContextDelivered now e st)
        (.ctx e.contextId) = none
    ∧ (∀ id, strContains id e.contextId = true →
        redisGet (RedisContextManager.syncContextDelivered now e st)
          (.branch id) = none)
    ∧ RedisContextManager.getSharedContext
        (RedisContextManager.syncContextDelivered now e st) e.contextId = [] := by
  have hsnd := syncContext_snd now e st
  have hdeliv : RedisContextManager.syncContextDelivered now e st
      = (RedisContextManager.handleSyncEvent now e
          (RedisContextManager.syncContext now e st).1).1 := by
    unfold RedisContextManager.syncContextDelivered
    dsimp only
    rw [hsnd]
    rfl
  have hhandle : (RedisContextManager.handleSyncEvent now e
        (RedisContextManager.syncContext now e st).1).1
      = (let st1 := redisDel (RedisContextManager.syncContext now e st).1
            (.ctx e.contextId)
         let bks := branchKeysContaining st1 e.contextId
         if bks = [] then st1 else redisDelAll st1 bks) := by
    simp [RedisContextManager.handleSyncEvent, hty]
  have hctx : redisGet (RedisContextManager.syncContextDelivered now e st)
      (.ctx e.contextId) = none := by
    rw [hdeliv, hhandle]
    dsimp only
    have h1 : redisGet (redisDel (RedisContextManager.syncContext now e st).1
        (.ctx e.contextId)) (.ctx e.contextId) = none :=
      redisGet_redisDel_self _ _
    by_cases hbk : branchKeysContaining (redisDel
        (RedisContextManager.syncContext now e st).1 (.ctx e.contextId))
        e.contextId = []
    · rw [if_pos hbk]; exact h1
    · rw [if_neg hbk]
      have hnm : RKey.ctx e.contextId ∉ branchKeysContaining (redisDel
          (RedisContextManager.syncContext now e st).1 (.ctx e.contextId))
          e.contextId := by
        intro hm
        have := (mem_branchKeysContaining.mp hm).2
        simp [ctxMatch] at this
      unfold redisGet
      rw [redisEntry_redisDelAll_not_mem _ _ _ hnm]
      unfold redisGet at h1
      exact h1
  refine ⟨hsnd, hctx, ?_, ?_⟩
  · intro id hcont
    rw [hdeliv, hhandle]
    dsimp only
    cases hg : redisGet (redisDel (RedisContextManager.syncContext now e st).1
        (.ctx e.contextId)) (.branch id) with
    | none =>
        by_cases hbk : branchKeysContaining (redisDel
            (RedisContextManager.syncContext now e st).1 (.ctx e.contextId))
            e.contextId = []
        · rw [if_pos hbk]; exact hg
        · rw [if_neg hbk]
          by_cases hm : RKey.branch id ∈ branchKeysContaining (redisDel
              (RedisContextManager.syncContext now e st).1 (.ctx e.contextId))
              e.contextId
          · unfold redisGet
            rw [redisEntry_redisDelAll_mem _ _ _ hm]
            rfl
          · unfold redisGet
            rw [redisEntry_redisDelAll_not_mem _ _ _ hm]
            unfold redisGet at hg
            exact hg
    | some v =>
        obtain ⟨e', he', hk⟩ := exists_entry_of_redisGet_some hg
        have hm : RKey.branch id ∈ branchKeysContaining (redisDel
            (RedisContextManager.syncContext now e st).1 (.ctx e.contextId))
            e.contextId :=
          mem_branchKeysContaining.mpr ⟨⟨e', he', hk⟩, by simp [ctxMatch, hcont]⟩
        have hbk : branchKeysContaining (redisDel
            (RedisContextManager.syncContext now e st).1 (.ctx e.contextId))
            e.contextId ≠ [] := by
          intro hx
          rw [hx] at hm
          cases hm
        rw [if_neg hbk]
        unfold redisGet
        rw [redisEntry_redisDelAll_mem _ _ _ hm]
        rfl
  · unfold RedisContextManager.getSharedContext
    rw [hctx]

/-- C6 witness: deleting context S from a store holding S = [nodeA] and
the branch record S-T-5 (whose id contains S). -/
theorem sync_delete_removes_context_and_branches_witness :
    (evDel.type = .delete ∧ strContains "S-T-5" "S" = true)
    ∧ (RedisContextManager.syncContext 9 evDel ctxStoreB).2 = [evDel]
    ∧ redisGet (RedisContextManager.syncContextDelivered 9 evDel ctxStoreB)
        (.ctx "S") = none
    ∧ redisGet (RedisContextManager.syncContextDelivered 9 evDel ctxStoreB)
        (.branch "S-T-5") = none
    ∧ RedisContextManager.getSharedContext
        (RedisContextManager.syncContextDelivered 9 evDel ctxStoreB) "S" = [] :=
  ⟨⟨rfl, by decide⟩,
   (sync_delete_removes_context_and_branches ctxStoreB 9 evDel rfl).1,
   (sync_delete_removes_context_and_branches ctxStoreB 9 evDel rfl).2.1,
   (sync_delete_removes_context_and_branches ctxStoreB 9 evDel rfl).2.2.1 "S-T-5" (by decide),
   (sync_delete_removes_context_and_branches ctxStoreB 9 evDel rfl).2.2.2⟩

/-- C4: mergeContextBranch on a (source, target) pair with no branch
fails with NotFound; with two branches created for the pair (at t1 and
then t2), the KEYS enumeration lists them in creation order and merge
takes the last — the most recently created — branch: it overwrites the
target's context with that branch's snapshot (the source context as of
the second branch creation) through a syncContext update event carrying
metadata.mergedFrom = sourceId, and deletes that branch record. After a
merge of the only branch of the pair, a second merge fails with
NotFound. Stated over any store with no pre-existing branch keys for
the pair and distinct creation timestamps. -/
theorem merge_takes_most_recent_branch (st0 : RStore) (S T : String)
    (t1 t2 t3 t4 t5 : Nat)
    (hnb : branchKeysForPair st0 S T = [])
    (hts : toString t1 ≠ toString t2) :
    RedisContextManager.mergeContextBranch t3 S T st0 = .error .noBranchFound
    ∧ branchKeysForPair
        (RedisContextManager.createContextBranch t2 S T
          (RedisContextManager.createContextBranch t1 S T st0).2).2 S T
      = [.branch (S ++ "-" ++ T ++ "-" ++ toString t1),
         .branch (S ++ "-" ++ T ++ "-" ++ toString t2)]
    ∧ RedisContextManager.mergeContextBranch t3 S T
        (RedisContextManager.createContextBranch t2 S T
          (RedisContextManager.createContextBranch t1 S T st0).2).2
      = .ok (redisDel (RedisContextManager.syncContext t3
            (mergeEvent S T (RedisContextManager.getSharedContext st0 S) t2 t3)
            (RedisContextManager.createContextBranch t2 S T
              (RedisContextManager.createContextBranch t1 S T st0).2).2).1
          (.branch (S ++ "-" ++ T ++ "-" ++ toString t2)),
          [mergeEvent S T (RedisContextManager.getSharedContext st0 S) t2 t3])
    ∧ RedisContextManager.getSharedContext
        (redisDel (RedisContextManager.syncContext t3
            (mergeEvent S T (RedisContextManager.getSharedContext st0 S) t2 t3)
            (RedisContextManager.createContextBranch t2 S T
              (RedisContextManager.createContextBranch t1 S T st0).2).2).1
          (.branch (S ++ "-" ++ T ++ "-" ++ toString t2))) T
      = RedisContextManager.getSharedContext st0 S
    ∧ redisGet
        (redisDel (RedisContextManager.syncContext t3
            (mergeEvent S T (RedisContextManager.getSharedContext st0 S) t2 t3)
            (RedisContextManager.createContextBranch t2 S T
              (RedisContextManager.createContextBranch t1 S T st0).2).2).1
          (.branch (S ++ "-" ++ T ++ "-" ++ toString t2)))
        (.branch (S ++ "-" ++ T ++ "-" ++ toString t2)) = none
    ∧ RedisContextManager.mergeContextBranch t4 S T
        (RedisContextManager.createContextBranch t1 S T st0).2
      = .ok (redisDel (RedisContextManager.syncContext t4
            (mergeEvent S T (RedisContextManager.getSharedContext st0 S) t1 t4)
            (RedisContextManager.createContextBranch t1 S T st0).2).1
          (.branch (S ++ "-" ++ T ++ "-" ++ toString t1)),
          [mergeEvent S T (RedisContextManager.getSharedContext st0 S) t1 t4])
    ∧ RedisContextManager.mergeContextBranch t5 S T
        (redisDel (RedisContextManager.syncContext t4
            (mergeEvent S T (RedisContextManager.getSharedContext st0 S) t1 t4)
            (RedisContextManager.createContextBranch t1 S T st0).2).1
          (.branch (S ++ "-" ++ T ++ "-" ++ toString t1)))
      = .error .noBranchFound := by
  have hdisj : ∀ (ts : String), ∀ e ∈ st0,
      e.key ≠ RKey.branch (S ++ "-" ++ T ++ "-" ++ ts) := by
    intro ts e he hk
    have hm : RKey.branch (S ++ "-" ++ T ++ "-" ++ ts) ∈ branchKeysForPair st0 S T :=
      mem_branchKeysForPair.mpr ⟨⟨e, he, hk⟩, pairMatch_branchId S T ts⟩
    rw [hnb] at hm
    cases hm
  have hts' : S ++ "-" ++ T ++ "-" ++ toString t1 ≠ S ++ "-" ++ T ++ "-" ++ toString t2 := by
    intro hx
    exact hts (branchId_ts_inj hx)
  -- the first branch creation appends its record
  have hst1 : (RedisContextManager.createContextBranch t1 S T st0).2
      = st0 ++ [branchEntry S T (RedisContextManager.getSharedContext st0 S) t1] := by
    unfold RedisContextManager.createContextBranch
    dsimp only
    exact redisSet_of_not_mem st0 _ _ _ (hdisj (toString t1))
  -- the source context as the second creation sees it
  have hGS1 : RedisContextManager.getSharedContext
      (RedisContextManager.createContextBranch t1 S T st0).2 S
      = RedisContextManager.getSharedContext st0 S := by
    unfold RedisContextManager.getSharedContext
    rw [hst1, redisGet_append_ne _ _ _ (by simp [branchEntry])]
  have hne1 : ∀ e ∈ (RedisContextManager.createContextBranch t1 S T st0).2,
      e.key ≠ RKey.branch (S ++ "-" ++ T ++ "-" ++ toString t2) := by
    rw [hst1]
    intro e he hk
    rcases List.mem_append.mp he with h1 | h1
    · exact hdisj (toString t2) e h1 hk
    · simp [branchEntry] at h1
      rw [h1] at hk
      simp at hk
      exact hts' hk
  -- the second branch creation appends as well
  have hst2 : (RedisContextManager.createContextBranch t2 S T
        (RedisContextManager.createContextBranch t1 S T st0).2).2
      = (RedisContextManager.createContextBranch t1 S T st0).2
        ++ [branchEntry S T (RedisContextManager.getSharedContext
              (RedisContextManager.createContextBranch t1 S T st0).2 S) t2] := by
    unfold RedisContextManager.createContextBranch
    dsimp only
    exact redisSet_of_not_mem _ _ _ _ hne1
  -- the branch record of the second creation, with the snapshot rewritten
  have hget2 : redisGet (RedisContextManager.createContextBranch t2 S T
        (RedisContextManager.createContextBranch t1 S T st0).2).2
      (.branch (S ++ "-" ++ T ++ "-" ++ toString t2))
      = some (.branch (branchRecord S T
          (RedisContextManager.getSharedContext st0 S) t2)) := by
    rw [hst2]
    rw [show RKey.branch (S ++ "-" ++ T ++ "-" ++ toString t2)
      = (branchEntry S T (RedisContextManager.getSharedContext
          (RedisContextManager.createContextBranch t1 S T st0).2 S) t2).key from rfl]
    rw [redisGet_append_self _ _ (redisEntry_eq_none _ _ hne1)]
    rw [show (branchEntry S T (RedisContextManager.getSharedContext
        (RedisContextManager.createContextBranch t1 S T st0).2 S) t2).val
      = .branch (branchRecord S T (RedisContextManager.getSharedContext
          (RedisContextManager.createContextBranch t1 S T st0).2 S) t2) from rfl]
    rw [hGS1]
  have hget1 : redisGet (RedisContextManager.createContextBranch t1 S T st0).2
      (.branch (S ++ "-" ++ T ++ "-" ++ toString t1))
      = some (.branch (branchRecord S T
          (RedisContextManager.getSharedContext st0 S) t1)) := by
    rw [hst1]
    rw [show RKey.branch (S ++ "-" ++ T ++ "-" ++ toString t1)
      = (branchEntry S T (RedisContextManager.getSharedContext st0 S) t1).key from rfl]
    exact redisGet_append_self _ _ (redisEntry_eq_none _ _ (hdisj (toString t1)))
  -- the branch keys for the pair after both creations, in creation order
  have hbk1 : branchKeysForPair (RedisContextManager.createContextBranch t1 S T st0).2 S T
      = [.branch (S ++ "-" ++ T ++ "-" ++ toString t1)] := by
    rw [hst1, branchKeysForPair_append, hnb]
    simp [branchKeysForPair, branchEntry, pairMatch_branchId]
  have hbk2 : branchKeysForPair (RedisContextManager.createContextBranch t2 S T
        (RedisContextManager.createContextBranch t1 S T st0).2).2 S T
      = [.branch (S ++ "-" ++ T ++ "-" ++ toString t1),
         .branch (S ++ "-" ++ T ++ "-" ++ toString t2)] := by
    rw [hst2, branchKeysForPair_append, hbk1]
    simp [branchKeysForPair, branchEntry, pairMatch_branchId]
  refine ⟨?_, hbk2, ?_, ?_, ?_, ?_, ?_⟩
  · unfold RedisContextManager.mergeContextBranch
    rw [hnb]
    rfl
  · unfold RedisContextManager.mergeContextBranch
    rw [hbk2]
    dsimp only
    rw [show ([RKey.branch (S ++ "-" ++ T ++ "-" ++ toString t1),
        RKey.branch (S ++ "-" ++ T ++ "-" ++ toString t2)].getLast?)
      = some (RKey.branch (S ++ "-" ++ T ++ "-" ++ toString t2)) from rfl]
    dsimp only
    rw [hget2]
    dsimp only
    rw [syncContext_snd]
    rfl
  · unfold RedisContextManager.getSharedContext
    rw [redisGet_redisDel_ne _ _ _ (by simp), syncContext_get_ctx_at t3 _ _ T rfl]
    rfl
  · exact redisGet_redisDel_self _ _
  · unfold RedisContextManager.mergeContextBranch
    rw [hbk1]
    dsimp only
    rw [show ([RKey.branch (S ++ "-" ++ T ++ "-" ++ toString t1)].getLast?)
      = some (RKey.branch (S ++ "-" ++ T ++ "-" ++ toString t1)) from rfl]
    dsimp only
    rw [hget1]
    dsimp only
    rw [syncContext_snd]
    rfl
  · have hbkS : branchKeysForPair (RedisContextManager.syncContext t4
        (mergeEvent S T (RedisContextManager.getSharedContext st0 S) t1 t4)
        (RedisContextManager.createContextBranch t1 S T st0).2).1 S T
        = [.branch (S ++ "-" ++ T ++ "-" ++ toString t1)] := by
      rw [branchKeysForPair_syncContext _ _ _ _ _ (pairMatch_target_false S T)]
      exact hbk1
    have hnil : branchKeysForPair
        (redisDel (RedisContextManager.syncContext t4
            (mergeEvent S T (RedisContextManager.getSharedContext st0 S) t1 t4)
            (RedisContextManager.createContextBranch t1 S T st0).2).1
          (.branch (S ++ "-" ++ T ++ "-" ++ toString t1))) S T = [] := by
      apply List.eq_nil_iff_forall_not_mem.mpr
      intro x hx
      obtain ⟨⟨e, he, hk⟩, hp⟩ := mem_branchKeysForPair.mp hx
      obtain ⟨heS, hne⟩ := mem_redisDel he
      have hxm : x ∈ branchKeysForPair (RedisContextManager.syncContext t4
          (mergeEvent S T (RedisContextManager.getSharedContext st0 S) t1 t4)
          (RedisContextManager.createContextBranch t1 S T st0).2).1 S T :=
        mem_branchKeysForPair.mpr ⟨⟨e, heS, hk⟩, hp⟩
      rw [hbkS] at hxm
      simp at hxm
      rw [hxm] at hk
      exact hne hk
    unfold RedisContextManager.mergeContextBranch
    rw [hnil]
    rfl

/-- C4 witness: starting from the store holding only context S (no
branch keys for the pair), with branches created at t=1 and t=2,
merged at t=3 (two-branch run) and t=4/t=5 (single-branch run). -/
theorem merge_takes_most_recent_branch_witness :
    (branchKeysForPair ctxStoreA "S" "T" = [] ∧ toString 1 ≠ toString 2)
    ∧ RedisContextManager.mergeContextBranch 3 "S" "T" ctxStoreA
        = .error .noBranchFound
    ∧ branchKeysForPair
        (RedisContextManager.createContextBranch 2 "S" "T"
          (RedisContextManager.createContextBranch 1 "S" "T" ctxStoreA).2).2 "S" "T"
      = [.branch ("S" ++ "-" ++ "T" ++ "-" ++ toString 1),
         .branch ("S" ++ "-" ++ "T" ++ "-" ++ toString 2)]
    ∧ redisGet
        (redisDel (RedisContextManager.syncContext 3
            (mergeEvent "S" "T" (RedisContextManager.getSharedContext ctxStoreA "S") 2 3)
            (RedisContextManager.createContextBranch 2 "S" "T"
              (RedisContextManager.createContextBranch 1 "S" "T" ctxStoreA).2).2).1
          (.branch ("S" ++ "-" ++ "T" ++ "-" ++ toString 2)))
        (.branch ("S" ++ "-" ++ "T" ++ "-" ++ toString 2)) = none
    ∧ RedisContextManager.mergeContextBranch 5 "S" "T"
        (redisDel (RedisContextManager.syncContext 4
            (mergeEvent "S" "T" (RedisContextManager.getSharedContext ctxStoreA "S") 1 4)
            (RedisContextManager.createContextBranch 1 "S" "T" ctxStoreA).2).1
          (.branch ("S" ++ "-" ++ "T" ++ "-" ++ toString 1)))
      = .error .noBranchFound :=
  ⟨⟨rfl, by decide⟩,
   (merge_takes_most_recent_branch ctxStoreA "S" "T" 1 2 3 4 5 rfl (by decide)).1,
   (merge_takes_most_recent_branch ctxStoreA "S" "T" 1 2 3 4 5 rfl (by decide)).2.1,
   (merge_takes_most_recent_branch ctxStoreA "S" "T" 1 2 3 4 5 rfl (by decide)).2.2.2.2.1,
   (merge_takes_most_recent_branch ctxStoreA "S" "T" 1 2 3 4 5 rfl (by decide)).2.2.2.2.2.2⟩

/-- C7 counterexample: the claim, which cites both
BaseBackplane.broadcastMessage and RedisBackplane.broadcastMessage,
says every broadcastMessage publishes one distinct envelope per
registered active agent matching the filter. The override on the
concrete Redis backplane does not: it delegates to the broker's
broadcastMessage, a single publish of the raw message on the shared
channel. With agentStoreA registering the two active agents "a" and
"b" (and idle "c"), it publishes exactly one item — the raw
AgentMessage, no envelope, no routing.target — for two matching
agents, and the published list does not depend on the registered
agents at all (same on the empty store: no discovery lookup, no
filter). -/
theorem redis_broadcast_single_shared_message :
    (RedisBackplane.broadcastMessage msgA agentStoreA).2 = [msgA]
    ∧ (RedisBackplane.broadcastMessage msgA agentStoreA).1 = agentStoreA
    ∧ (RedisBackplane.broadcastMessage msgA agentStoreA).2
        = (RedisBackplane.broadcastMessage msgA []).2
    ∧ (RedisBackplane.broadcastMessage msgA agentStoreA).2.length = 1
    ∧ (RedisDiscoveryService.findAgents agentStoreA
        { status := some .active }).length = 2
    ∧ (1 : Nat) ≠ 2 :=
  ⟨rfl, rfl, rfl, rfl, by decide, by decide⟩

/-- C7 amended: the per-recipient fan-out is implemented by
BaseBackplane.broadcastMessage only. That implementation looks up the
currently registered agents with status active, applies the caller's
filter, and publishes one fresh envelope per remaining agent — the
published envelopes' targets are exactly the matching agents' ids in
order, each matching agent is targeted by exactly one envelope, every
envelope carries the broadcast message with routing.source =
message.metadata.sender, no envelope is addressed to a registered agent
that is not active or is excluded by the filter, and the envelopes are
pairwise distinct (a fresh envelope per recipient, not one shared
envelope); stated over stores with distinct keys whose agent records
sit under their own id. The RedisBackplane override instead publishes
the raw message once on the shared channel, for any message and any
store, with no per-recipient envelopes. -/
theorem broadcast_one_envelope_per_matching_agent (st : RStore) (now : Nat)
    (genId : Nat → String) (message : AgentMessage) (f : AgentInfo → Bool)
    (hnd : (st.map (fun e => e.key)).Nodup)
    (hcons : ∀ e ∈ st, agentKeyConsistent e = true) :
    (∃ envs,
      BaseBackplane.broadcastMessage true st now genId message (some f) = .ok envs
      ∧ envs.map (fun env => env.routing.target)
          = ((RedisDiscoveryService.findAgents st
              { status := some .active }).filter
                (fun a => f a.toAgentInfo)).map (fun a => a.id)
      ∧ (∀ a ∈ (RedisDiscoveryService.findAgents st
              { status := some .active }).filter (fun a => f a.toAgentInfo),
           (envs.map (fun env => env.routing.target)).count a.id = 1)
      ∧ (∀ env ∈ envs, env.message = message
          ∧ env.routing.source = message.metadata.sender)
      ∧ (∀ a ∈ agentsOf st, ¬ (a.status = .active ∧ f a.toAgentInfo = true) →
           ∀ env ∈ envs, env.routing.target ≠ a.id)
      ∧ envs.Nodup)
    ∧ (∀ (m : AgentMessage) (st2 : RStore),
        RedisBackplane.broadcastMessage m st2 = (st2, [m])) := by
  have hids0 : ((agentsOf st).map (fun r => r.id)).Nodup := nodup_agentsOf_ids hnd hcons
  have hsub : List.Sublist
      (((RedisDiscoveryService.findAgents st
        { status := some .active }).filter (fun a => f a.toAgentInfo)).map (fun a => a.id))
      ((agentsOf st).map (fun r => r.id)) := by
    apply List.Sublist.map
    exact List.Sublist.trans
      (List.filter_sublist (RedisDiscoveryService.findAgents st { status := some .active }))
      (List.filter_sublist (agentsOf st))
  have hids : (((RedisDiscoveryService.findAgents st
        { status := some .active }).filter (fun a => f a.toAgentInfo)).map
          (fun a => a.id)).Nodup := hids0.sublist hsub
  have hmapeq :
      (((RedisDiscoveryService.findAgents st
          { status := some .active }).filter (fun a => f a.toAgentInfo)).enum.map
        (fun p => BaseBackplane.mkEnvelope (genId p.1) now message p.2.id)).map
          (fun env => env.routing.target)
      = ((RedisDiscoveryService.findAgents st
          { status := some .active }).filter (fun a => f a.toAgentInfo)).map
            (fun a => a.id) := by
    rw [List.map_map]
    rw [show ((fun env => env.routing.target)
          ∘ (fun p : Nat × AgentRegistration =>
              BaseBackplane.mkEnvelope (genId p.1) now message p.2.id))
        = ((fun a : AgentRegistration => a.id) ∘ Prod.snd) from rfl]
    rw [← List.map_map, List.enum_map_snd]
  refine ⟨⟨((RedisDiscoveryService.findAgents st
      { status := some .active }).filter (fun a => f a.toAgentInfo)).enum.map
        (fun p => BaseBackplane.mkEnvelope (genId p.1) now message p.2.id),
    ?_, hmapeq, ?_, ?_, ?_, ?_⟩, fun m st2 => rfl⟩
  · rfl
  · intro a ha
    rw [hmapeq]
    exact List.count_eq_one_of_mem hids (List.mem_map_of_mem _ ha)
  · intro env henv
    obtain ⟨p, hp, hq⟩ := List.mem_map.mp henv
    rw [← hq]
    exact ⟨rfl, rfl⟩
  · intro a ha hna env henv hteq
    obtain ⟨p, hp, hq⟩ := List.mem_map.mp henv
    have hmem2 : p.2 ∈ (RedisDiscoveryService.findAgents st
        { status := some .active }).filter (fun a => f a.toAgentInfo) := by
      have := List.mem_map_of_mem Prod.snd hp
      rwa [List.enum_map_snd] at this
    have hpq := List.mem_filter.mp hmem2
    have hfa := List.mem_filter.mp hpq.1
    have hst : p.2.status = .active := by
      have := hfa.2
      simpa [RedisDiscoveryService.matchesQuery] using this
    have hid : p.2.id = a.id := by rw [← hq] at hteq; exact hteq
    have heqa : p.2 = a :=
      List.inj_on_of_nodup_map hids0 hfa.1 ha hid
    apply hna
    rw [← heqa]
    exact ⟨hst, hpq.2⟩
  · apply List.Nodup.of_map (fun env => env.routing.target)
    rw [hmapeq]
    exact hids

/-- C7 amended witness: agentStoreA holds "a" (dev, active), "b" (qa,
active) and "c" (dev, idle); the base fan-out with the filter role =
dev produces exactly one envelope, addressed to "a", while the Redis
override publishes the single raw message on the shared channel. -/
theorem broadcast_one_envelope_per_matching_agent_witness :
    (agentStoreA.map (fun e => e.key)).Nodup
    ∧ (∃ envs,
        BaseBackplane.broadcastMessage true agentStoreA 7 (fun i => toString i) msgA
          (some (fun a => a.role = "dev")) = .ok envs
        ∧ envs.map (fun env => env.routing.target) = ["a"])
    ∧ RedisBackplane.broadcastMessage msgA agentStoreA = (agentStoreA, [msgA]) := by
  refine ⟨by decide, ?_, ?_⟩
  · obtain ⟨⟨envs, h1, h2, _, _, _, _⟩, _⟩ :=
      broadcast_one_envelope_per_matching_agent agentStoreA 7 (fun i => toString i)
        msgA (fun a => a.role = "dev") (by decide) (by decide)
    refine ⟨envs, h1, ?_⟩
    rw [h2]
    decide
  · exact (broadcast_one_envelope_per_matching_agent agentStoreA 7 (fun i => toString i)
      msgA (fun a => a.role = "dev") (by decide) (by decide)).2 msgA agentStoreA

/-- C9: every convenience operation of the backplane — sendMessage,
broadcastMessage, shareContext, findCollaborators — fails with
NotConnected when invoked while the connected flag is false, which is
its state both before connect and after disconnect (disconnect always
leaves connected = false); and cleanup is idempotent: a cleanup that
succeeded leaves the backplane not connected, so a second cleanup in a
row is a no-op that cannot throw, and a failed connect also leaves
isConnected = false, so cleanup after failed or partial initialization
does not throw either. -/
theorem not_connected_errors_and_cleanup_twice :
    (∀ now genId message,
        BaseBackplane.sendMessage false now genId message = .error .notConnected)
    ∧ (∀ st now genId message filter,
        BaseBackplane.broadcastMessage false st now genId message filter
          = .error .notConnected)
    ∧ (∀ now cid tid st,
        BaseBackplane.shareContext false now cid tid st = .error .notConnected)
    ∧ (∀ st role caps,
        BaseBackplane.findCollaborators false st role caps = .error .notConnected)
    ∧ (∀ (σ : Type) (ops : BaseBackplane.ServiceOps σ) (b : BaseBackplane.BaseBP σ),
        (BaseBackplane.bbDisconnect ops b).connected = false)
    ∧ (∀ d1 q1 d2 q2 s s', RedisBackplane.rdCleanup d1 q1 s = .ok s' →
        RedisBackplane.rdCleanup d2 q2 s' = .ok s')
    ∧ (∀ c i s d q, s.isConnected = false → (RedisBackplane.rdConnect c i s).1 = false →
        RedisBackplane.rdCleanup d q (RedisBackplane.rdConnect c i s).2
          = .ok (RedisBackplane.rdConnect c i s).2) := by
  refine ⟨fun now genId message => rfl, fun st now genId message filter => rfl,
    fun now cid tid st => rfl, fun st role caps => rfl, ?_, ?_, ?_⟩
  · intro σ ops b
    unfold BaseBackplane.bbDisconnect
    by_cases hb : b.connected
    · simp [hb]
    · simp [hb]
  · intro d1 q1 d2 q2 s s' h
    obtain ⟨sc, sd, si⟩ := s
    cases si
    · simp [RedisBackplane.rdCleanup] at h
      simp [RedisBackplane.rdCleanup, ← h]
    · cases d1
      · simp [RedisBackplane.rdCleanup] at h
      · cases q1
        · simp [RedisBackplane.rdCleanup] at h
        · simp [RedisBackplane.rdCleanup] at h
          simp [RedisBackplane.rdCleanup, ← h]
  · intro c i s d q h0 h1
    obtain ⟨sc, sd, si⟩ := s
    cases si
    · cases c
      · simp [RedisBackplane.rdConnect, RedisBackplane.rdCleanup]
      · cases i
        · simp [RedisBackplane.rdConnect, RedisBackplane.rdCleanup]
        · simp [RedisBackplane.rdConnect] at h1
    · cases h0

/-- C9 witness: from the fully connected state, one cleanup succeeds
and yields the all-disconnected state; a second cleanup (with both of
its awaited operations failing, the worst case) still returns ok on
that state; and after a connect whose initialize step failed from the
disconnected state, cleanup is ok as well. -/
theorem not_connected_errors_and_cleanup_twice_witness :
    RedisBackplane.rdCleanup true true ⟨true, true, true⟩ = .ok ⟨false, false, false⟩
    ∧ RedisBackplane.rdCleanup false false ⟨false, false, false⟩ = .ok ⟨false, false, false⟩
    ∧ RedisBackplane.rdCleanup false false
        (RedisBackplane.rdConnect true false ⟨false, false, false⟩).2
        = .ok (RedisBackplane.rdConnect true false ⟨false, false, false⟩).2 := by
  refine ⟨rfl, ?_, ?_⟩
  · exact not_connected_errors_and_cleanup_twice.2.2.2.2.2.1 true true false false
      ⟨true, true, true⟩ ⟨false, false, false⟩ rfl
  · exact not_connected_errors_and_cleanup_twice.2.2.2.2.2.2 true false
      ⟨false, false, false⟩ false false rfl rfl

end AgentsNew
